import Mathlib

/-!
# Verification of the Mail-Server dispatch/status core (`src/app.py`)

Shallow embedding of the Python source `app.py` of devkiraa/Mail-Server.

Modelling decisions, recorded once here:

* Python strings are Lean `String`s; `len` is `String.length` (both count
  code points for the inputs involved).
* The module-level dict `email_status` is an association list
  `List (String × String)`; `setStatus`/`getStatus` embed dict assignment
  and `dict.get(key, default)` (replace-first semantics, one entry per key).
* The CSV audit file is the list `emailLog` of `AuditRecord`s; appending a
  CSV row is appending to that list.  The wall-clock timestamp column is
  not modelled: no claim mentions it.
* The `ThreadPoolExecutor` is modelled by a queue `pendingJobs` of
  submitted-but-not-yet-executed jobs; a scheduler step may execute any
  queued job (any interleaving the pool could produce).
* The SMTP interaction (lines 75-81 of the source: connect, `starttls`,
  `login`, `send_message`) is the only genuinely fallible operation; it is
  abstracted by a `DeliverResult` parameter — `.ok` when the block returns,
  `.error e` when it raises an exception whose rendering is `e`.  Message
  composition (lines 64-72) is embedded by `compose_message`.
* `send_email` (source lines 61-89) wraps its whole body in
  `try/except Exception`, so its embedding is a total function on states;
  in `retry_loop` the try-block around the `send_email` call is therefore
  embedded as an always-`ok` `Except` value, and the source's `except`
  branch (lines 98-106) is transcribed verbatim as the (dead) `.error` arm.
* The `while attempt < retries` loop of `send_email_with_retry` is given
  the explicit fuel `retries` (the loop performs at most `retries`
  iterations, one per increment of `attempt`), so that the definition is
  structurally recursive and computable.
-/

namespace MailServer

/-- One row of the CSV audit file `email_log.csv` (source lines 51-59);
the timestamp column is omitted (not referenced by any property). -/
structure AuditRecord where
  requestId : String
  senderEmail : String
  recipient : String
  subject : String
  status : String
deriving DecidableEq, Repr

/-- The environment-sourced configuration read by `handle_send_email`
(source lines 136-138): `USER_EMAIL`, `USER_APP_PASSWORD`,
`EMAIL_FROM_NAME`; `none` models an unset variable (`os.getenv` → `None`). -/
structure Config where
  userEmail : Option String
  userAppPassword : Option String
  emailFromName : Option String
deriving DecidableEq, Repr

/-- The JSON body of a `POST /send-email` request: each field is `none`
when the key is absent.  (Values are modelled as strings, the only case
the spec and claims discuss.) -/
structure EmailData where
  subject : Option String
  recipient : Option String
  body : Option String
  is_html : Bool
  cc : Option String
  bcc : Option String
deriving DecidableEq, Repr

/-- The arguments `executor.submit` passes to `send_email_with_retry`
(source line 147). -/
structure DispatchJob where
  requestId : String
  subject : String
  recipient : String
  body : String
  is_html : Bool
  senderEmail : String
  senderPassword : String
  senderName : Option String
  cc : Option String
  bcc : Option String
deriving DecidableEq, Repr

/-- The mutable server state: `email_status` is the module-level status
dict (source line 33), `emailLog` the CSV audit file, `pendingJobs` the
jobs submitted to the thread pool and not yet executed. -/
structure ServerState where
  email_status : List (String × String)
  emailLog : List AuditRecord
  pendingJobs : List DispatchJob
deriving DecidableEq, Repr

/-- The state at process start: empty dict, empty log, idle pool. -/
def initState : ServerState :=
  { email_status := [], emailLog := [], pendingJobs := [] }

/-- Python dict assignment `email_status[k] = v`: replace the entry for
`k` if present, else add one. -/
def setStatus : List (String × String) → String → String → List (String × String)
  | [], k, v => [(k, v)]
  | q :: t, k, v => if q.1 = k then (k, v) :: t else q :: setStatus t k v

/-- Python `email_status.get(k)` (without default): `none` when absent. -/
def getStatus : List (String × String) → String → Option String
  | [], _ => none
  | q :: t, k => if q.1 = k then some q.2 else getStatus t k

/-- Python truthiness of an optional string: `None` and `""` are falsy. -/
def truthy : Option String → Bool
  | none => false
  | some s => s != ""

/-- `f"{x}"` applied to an `Optional[str]`: `None` renders as `"None"`. -/
def pyStrOpt : Option String → String
  | none => "None"
  | some s => s

/-! ## The address pattern `EMAIL_REGEX` (source line 36)

`EMAIL_REGEX = re.compile(r"[^@]+@[^@]+\.[^@]+")`, used via
`EMAIL_REGEX.match(recipient)` (source line 117).  `re.match` anchors at
the start only: it succeeds iff some *prefix* of the string matches the
pattern.  The matcher below is a direct backtracking transcription of the
pattern over the character list. -/

/-- Trailing `[^@]+`: at least one non-`'@'` character must follow
(further characters are beyond the matched prefix and unconstrained). -/
def afterDot : List Char → Bool
  | [] => false
  | c :: _ => c != '@'

/-- Continuation of `[^@]+\.[^@]+` after at least one character of the
first `[^@]+` has been consumed: either the literal dot comes next (and
`afterDot` closes the pattern), or one more non-`'@'` character is
consumed. -/
def p2loop : List Char → Bool
  | [] => false
  | c :: rest => (c == '.' && afterDot rest) || (c != '@' && p2loop rest)

/-- The sub-pattern `[^@]+\.[^@]+` matched against a prefix. -/
def p2 : List Char → Bool
  | [] => false
  | c :: rest => c != '@' && p2loop rest

/-- Continuation of `[^@]+@...` after at least one character of the
leading `[^@]+`: either the `'@'` comes next, or one more non-`'@'`
character is consumed. -/
def p1loop : List Char → Bool
  | [] => false
  | c :: rest => (c == '@' && p2 rest) || (c != '@' && p1loop rest)

/-- The full pattern `[^@]+@[^@]+\.[^@]+` matched against a prefix. -/
def regexTop : List Char → Bool
  | [] => false
  | c :: rest => c != '@' && p1loop rest

/-- `EMAIL_REGEX.match(s)` is truthy. -/
def emailRegexMatch (s : String) : Bool :=
  regexTop s.data

/-- The three `abort(400, description=...)` outcomes of
`validate_email_data` (source lines 108-121). -/
inductive ValidationError where
  | missingFields
  | invalidEmailFormat
  | lengthExceeded
deriving DecidableEq, Repr

/-- `validate_email_data(data)` (source lines 108-121): `none` means the
function returned normally, `some e` that it aborted with error `e`.
The checks run in source order: presence/truthiness of the three fields,
then the address pattern, then the length caps. -/
def validate_email_data (d : EmailData) : Option ValidationError :=
  if !(truthy d.subject && truthy d.recipient && truthy d.body) then
    some .missingFields
  else if !emailRegexMatch (d.recipient.getD "") then
    some .invalidEmailFormat
  else if (d.subject.getD "").length > 255 || (d.body.getD "").length > 10000 then
    some .lengthExceeded
  else
    none

/-- The MIME message composed by `send_email` (source lines 64-72). -/
structure Message where
  fromField : String
  toField : String
  ccField : Option String
  bccField : Option String
  subjectField : String
  bodyContent : String
  subtype : String
deriving DecidableEq, Repr

/-- Source lines 64-72: `message["From"] = f"{sender_name} <{sender_email}>"`,
`To`, optional `Cc`/`Bcc`, `Subject`, and the body attached as `"html"`
or `"plain"` per the flag. -/
def compose_message (job : DispatchJob) : Message :=
  { fromField := pyStrOpt job.senderName ++ " <" ++ job.senderEmail ++ ">"
    toField := job.recipient
    ccField := job.cc
    bccField := job.bcc
    subjectField := job.subject
    bodyContent := job.body
    subtype := if job.is_html then "html" else "plain" }

/-- Outcome of the SMTP block (source lines 75-81): `.ok` when it
returns, `.error e` when it raises an exception rendered as `e`. -/
inductive DeliverResult where
  | ok
  | error (e : String)
deriving DecidableEq, Repr

/-- `log_email_to_csv(request_id, sender_email, recipient, subject, status)`
(source lines 51-59): append one row to the audit file. -/
def log_email_to_csv (st : ServerState)
    (request_id sender_email recipient subject status : String) : ServerState :=
  { st with emailLog := st.emailLog ++
      [{ requestId := request_id, senderEmail := sender_email,
         recipient := recipient, subject := subject, status := status }] }

/-- `send_email(...)` (source lines 61-89).  Its entire body sits inside
`try/except Exception`, so the function always returns: on delivery
success it logs `"sent"` and sets the status to `"sent"`; on any
exception `e` it logs and sets `"failed (" ++ e ++ ")"`.  The `deliver`
argument is the outcome of the SMTP block for this attempt. -/
def send_email (deliver : DeliverResult) (job : DispatchJob) (st : ServerState) : ServerState :=
  match deliver with
  | .ok =>
      let st1 := log_email_to_csv st job.requestId job.senderEmail job.recipient job.subject "sent"
      { st1 with email_status := setStatus st1.email_status job.requestId "sent" }
  | .error e =>
      let v := "failed (" ++ e ++ ")"
      let st1 := log_email_to_csv st job.requestId job.senderEmail job.recipient job.subject v
      { st1 with email_status := setStatus st1.email_status job.requestId v }

/-- The `while attempt < retries` loop of `send_email_with_retry`
(source lines 93-106), with fuel bounding the iteration count (the loop
increments `attempt` every iteration, so it runs at most `retries` times;
`send_email_with_retry` supplies `fuel = retries`).  The try-block is the
call of `send_email`, which handles all its exceptions internally, hence
the always-`ok` `Except`; the `.error` arm transcribes source lines
98-106 (`attempt += 1`; if attempts remain, double the delay and loop,
else record the failure status). -/
def retry_loop (deliver : Nat → DeliverResult) (job : DispatchJob) (retries : Nat) :
    Nat → Nat → Nat → ServerState → ServerState
  | _, _, 0, st => st
  | delay, attempt, fuel + 1, st =>
      if attempt < retries then
        match (Except.ok (send_email (deliver attempt) job st) : Except String ServerState) with
        | .ok st' => st'
        | .error e =>
            if attempt + 1 < retries then
              retry_loop deliver job retries (delay * 2) (attempt + 1) fuel st
            else
              let v := "failed (" ++ e ++ ")"
              { st with email_status := setStatus st.email_status job.requestId v }
      else st

/-- `send_email_with_retry(...)` (source lines 91-106) with per-attempt
delivery outcomes `deliver : Nat → DeliverResult` (attempt index ↦
outcome of that attempt's SMTP block). -/
def send_email_with_retry (deliver : Nat → DeliverResult) (job : DispatchJob)
    (retries delay : Nat) (st : ServerState) : ServerState :=
  retry_loop deliver job retries delay 0 retries st

/-- The three shapes of response `handle_send_email` can produce. -/
inductive HttpResponse where
  | validationError (desc : String)
  | credsError (body : String)
  | accepted (request_id : String)
deriving DecidableEq, Repr

/-- The job `executor.submit` receives (source line 147), assembled from
the validated request, the fresh identifier and the configuration. -/
def mkJob (cfg : Config) (id : String) (d : EmailData) : DispatchJob :=
  { requestId := id
    subject := d.subject.getD ""
    recipient := d.recipient.getD ""
    body := d.body.getD ""
    is_html := d.is_html
    senderEmail := cfg.userEmail.getD ""
    senderPassword := cfg.userAppPassword.getD ""
    senderName := cfg.emailFromName
    cc := d.cc
    bcc := d.bcc }

/-- `handle_send_email()` (source lines 123-149): validate (each `abort`
becomes the corresponding 400 response), read the credentials from the
environment, reject with
`jsonify({"error": "Missing user credentials in .env"}), 400` when the
sender email or password is falsy (source lines 140-141), otherwise
generate the fresh identifier `id`, submit the dispatch job to the pool,
and answer 200 with the identifier.  Note that nothing is written to
`email_status` on this path. -/
def handle_send_email (cfg : Config) (id : String) (d : EmailData) (st : ServerState) :
    HttpResponse × ServerState :=
  match validate_email_data d with
  | some .missingFields => (.validationError "Missing required fields", st)
  | some .invalidEmailFormat => (.validationError "Invalid email format", st)
  | some .lengthExceeded => (.validationError "Subject or body exceeds character limits", st)
  | none =>
      if !truthy cfg.userEmail || !truthy cfg.userAppPassword then
        (.credsError "Missing user credentials in .env", st)
      else
        (.accepted id, { st with pendingJobs := st.pendingJobs ++ [mkJob cfg id d] })

/-- `get_email_status(request_id)` (source lines 151-155):
`email_status.get(request_id, "Request ID not found")`, wrapped in the
returned JSON pair. -/
def get_email_status (st : ServerState) (request_id : String) : String × String :=
  (request_id, (getStatus st.email_status request_id).getD "Request ID not found")

/-! ## Execution model

A step of the running server is either an HTTP admission (with a fresh
identifier, as produced by `uuid.uuid4()`: never colliding with an
identifier already in use) or the thread pool executing one submitted
job, with the per-attempt SMTP outcomes chosen by the environment.
`GET /email-status` is a pure read (`get_email_status`) and changes no
state. -/

/-- `uuid.uuid4()` freshness: the generated identifier is not a key of
the status dict and not the identifier of a queued job. -/
def freshId (id : String) (st : ServerState) : Prop :=
  getStatus st.email_status id = none ∧ id ∉ st.pendingJobs.map (fun j => j.requestId)

/-- One observable state change of the server process. -/
inductive Step : ServerState → ServerState → Prop
  | httpSend (cfg : Config) (d : EmailData) (id : String) (st : ServerState)
      (hfresh : freshId id st) :
      Step st (handle_send_email cfg id d st).2
  | runJob (deliver : Nat → DeliverResult) (job : DispatchJob)
      (pre post : List DispatchJob) (st : ServerState)
      (h : st.pendingJobs = pre ++ job :: post) :
      Step st (send_email_with_retry deliver job 3 5 { st with pendingJobs := pre ++ post })

/-- States the server can be in after any finite run from process start. -/
def Reachable (st : ServerState) : Prop :=
  Relation.ReflTransGen Step initState st

/-- A status value the dispatcher writes: `"sent"` or `"failed (<reason>)"`. -/
def terminalStatus (v : String) : Prop :=
  v = "sent" ∨ ∃ r, v = "failed (" ++ r ++ ")"

/-- Inductive invariant: every status-dict value is terminal, queued jobs
have no status entry yet, and queued jobs carry pairwise distinct
identifiers. -/
def Inv (st : ServerState) : Prop :=
  (∀ p ∈ st.email_status, terminalStatus p.2)
  ∧ (∀ j ∈ st.pendingJobs, getStatus st.email_status j.requestId = none)
  ∧ st.pendingJobs.Pairwise (fun j1 j2 => j1.requestId ≠ j2.requestId)

/-! ## Library lemmas about the embedded primitives -/

theorem getStatus_setStatus_self (m : List (String × String)) (k v : String) :
    getStatus (setStatus m k v) k = some v := by
  induction m with
  | nil => simp [setStatus, getStatus]
  | cons q t ih =>
      by_cases hq : q.1 = k
      · simp [setStatus, hq, getStatus]
      · simp [setStatus, hq, getStatus, ih]

theorem getStatus_setStatus_ne (m : List (String × String)) (k v k' : String)
    (h : k' ≠ k) : getStatus (setStatus m k v) k' = getStatus m k' := by
  induction m with
  | nil => simp [setStatus, getStatus, Ne.symm h]
  | cons q t ih =>
      by_cases hq : q.1 = k
      · simp [setStatus, hq, getStatus, Ne.symm h]
      · simp only [setStatus, if_neg hq, getStatus]
        by_cases hq2 : q.1 = k'
        · simp [hq2]
        · simp [hq2, ih]

theorem mem_setStatus (m : List (String × String)) (k v : String) (p : String × String)
    (hp : p ∈ setStatus m k v) : p = (k, v) ∨ p ∈ m := by
  induction m with
  | nil => simpa [setStatus] using hp
  | cons q t ih =>
      by_cases hq : q.1 = k
      · rw [setStatus, if_pos hq] at hp
        rcases List.mem_cons.mp hp with h | h
        · exact Or.inl h
        · exact Or.inr (List.mem_cons_of_mem _ h)
      · rw [setStatus, if_neg hq] at hp
        rcases List.mem_cons.mp hp with h | h
        · exact Or.inr (h ▸ List.mem_cons_self q t)
        · rcases ih h with h2 | h2
          · exact Or.inl h2
          · exact Or.inr (List.mem_cons_of_mem _ h2)

theorem getStatus_eq_some_mem (m : List (String × String)) (k v : String)
    (h : getStatus m k = some v) : (k, v) ∈ m := by
  induction m with
  | nil => simp [getStatus] at h
  | cons q t ih =>
      rw [getStatus] at h
      by_cases hq : q.1 = k
      · rw [if_pos hq] at h
        have hv : q.2 = v := by injection h
        have : q = (k, v) := by
          obtain ⟨a, b⟩ := q
          simp only at hq hv
          rw [hq, hv]
        exact this ▸ List.mem_cons_self q t
      · rw [if_neg hq] at h
        exact List.mem_cons_of_mem _ (ih h)

/-- Behaviour of one `send_email` call: exactly one audit row is
appended and the status entry for the job's identifier is set to the one
terminal value matching the delivery outcome. -/
theorem send_email_spec (d : DeliverResult) (job : DispatchJob) (st : ServerState) :
    ∃ v, terminalStatus v ∧
      send_email d job st =
        { st with
          emailLog := st.emailLog ++
            [{ requestId := job.requestId, senderEmail := job.senderEmail,
               recipient := job.recipient, subject := job.subject, status := v }],
          email_status := setStatus st.email_status job.requestId v } := by
  cases d with
  | ok => exact ⟨"sent", Or.inl rfl, rfl⟩
  | error e => exact ⟨"failed (" ++ e ++ ")", Or.inr ⟨e, rfl⟩, rfl⟩

/-- With a positive retry budget, `send_email_with_retry` is one call of
`send_email` on the first attempt's outcome: `send_email` handles its own
exceptions, so the loop's first iteration always reaches `return`. -/
theorem send_email_with_retry_succ (deliver : Nat → DeliverResult) (job : DispatchJob)
    (r delay : Nat) (st : ServerState) :
    send_email_with_retry deliver job (r + 1) delay st = send_email (deliver 0) job st := by
  simp [send_email_with_retry, retry_loop]

/-- With `retries = 0` the loop body never runs and the state is unchanged. -/
theorem send_email_with_retry_zero (deliver : Nat → DeliverResult) (job : DispatchJob)
    (delay : Nat) (st : ServerState) :
    send_email_with_retry deliver job 0 delay st = st := rfl

/-- The admission handler either leaves the state unchanged (any
rejection) or accepts and only appends the dispatch job to the pool
queue; in particular it never touches `email_status` or the audit log. -/
theorem handle_send_email_cases (cfg : Config) (id : String) (d : EmailData)
    (st : ServerState) :
    (handle_send_email cfg id d st).2 = st ∨
      ((handle_send_email cfg id d st).1 = .accepted id ∧
        (handle_send_email cfg id d st).2 =
          { st with pendingJobs := st.pendingJobs ++ [mkJob cfg id d] }) := by
  unfold handle_send_email
  cases h : validate_email_data d with
  | some e => cases e <;> simp
  | none =>
      by_cases hc : (!truthy cfg.userEmail || !truthy cfg.userAppPassword) = true
      · simp [hc]
      · simp [hc]

/-! ## The inductive invariant is preserved by every step -/

theorem inv_initState : Inv initState :=
  ⟨fun p hp => absurd hp (List.not_mem_nil p),
   fun j hj => absurd hj (List.not_mem_nil j),
   List.Pairwise.nil⟩

theorem inv_httpSend (cfg : Config) (id : String) (d : EmailData) (st : ServerState)
    (hInv : Inv st) (hfresh : freshId id st) :
    Inv (handle_send_email cfg id d st).2 := by
  obtain ⟨hReg, hPend, hPair⟩ := hInv
  rcases handle_send_email_cases cfg id d st with h | ⟨_, h⟩
  · rw [h]; exact ⟨hReg, hPend, hPair⟩
  · rw [h]
    refine ⟨hReg, ?_, ?_⟩
    · intro j hj
      rcases List.mem_append.mp hj with hj | hj
      · exact hPend j hj
      · have : j = mkJob cfg id d := by simpa using hj
        rw [this]
        exact hfresh.1
    · refine List.pairwise_append.mpr ⟨hPair, List.pairwise_singleton _ _, ?_⟩
      intro a ha b hb
      have hb' : b = mkJob cfg id d := by simpa using hb
      rw [hb']
      intro hEq
      apply hfresh.2
      have hmem := List.mem_map_of_mem (fun j => j.requestId) ha
      have hEq' : a.requestId = id := hEq
      rw [← hEq']
      simpa using hmem

theorem inv_runJob (deliver : Nat → DeliverResult) (job : DispatchJob)
    (pre post : List DispatchJob) (st : ServerState) (hInv : Inv st)
    (h : st.pendingJobs = pre ++ job :: post) :
    Inv (send_email_with_retry deliver job 3 5 { st with pendingJobs := pre ++ post }) := by
  obtain ⟨hReg, hPend, hPair⟩ := hInv
  rw [show (3 : Nat) = 2 + 1 from rfl, send_email_with_retry_succ]
  obtain ⟨v, hv, hEq⟩ := send_email_spec (deliver 0) job { st with pendingJobs := pre ++ post }
  rw [hEq]
  have hPair' : (pre ++ job :: post).Pairwise (fun j1 j2 => j1.requestId ≠ j2.requestId) := by
    rw [← h]; exact hPair
  have hOther : ∀ j ∈ pre ++ post, j.requestId ≠ job.requestId := by
    intro j hj
    obtain ⟨hp1, hp2, hcross⟩ := List.pairwise_append.mp hPair'
    rcases List.mem_append.mp hj with hj | hj
    · exact hcross j hj job (List.mem_cons_self job post)
    · exact Ne.symm ((List.pairwise_cons.mp hp2).1 j hj)
  refine ⟨?_, ?_, ?_⟩
  · intro p hp
    rcases mem_setStatus _ _ _ _ hp with hp' | hp'
    · rw [hp']; exact hv
    · exact hReg p hp'
  · intro j hj
    have hjOld : j ∈ st.pendingJobs := by
      rw [h]
      rcases List.mem_append.mp hj with hj' | hj'
      · exact List.mem_append.mpr (Or.inl hj')
      · exact List.mem_append.mpr (Or.inr (List.mem_cons_of_mem _ hj'))
    rw [getStatus_setStatus_ne _ _ _ _ (hOther j hj)]
    exact hPend j hjOld
  · have hSub : (pre ++ post).Sublist (pre ++ job :: post) :=
      (List.append_sublist_append_left pre).mpr (List.sublist_cons_self job post)
    exact hPair'.sublist hSub

theorem step_preserves_inv (st st' : ServerState) (hInv : Inv st) (hs : Step st st') :
    Inv st' := by
  cases hs with
  | httpSend cfg d id st hfresh => exact inv_httpSend cfg id d st hInv hfresh
  | runJob deliver job pre post st h => exact inv_runJob deliver job pre post st hInv h

theorem reachable_inv (st : ServerState) (h : Reachable st) : Inv st := by
  induction h with
  | refl => exact inv_initState
  | tail _ hstep ih => exact step_preserves_inv _ _ ih hstep

/-- One step never changes an existing status entry: the only writes go
to the identifier of the executed job, which (by the invariant) has no
entry yet. -/
theorem step_preserves_status (st st' : ServerState) (hInv : Inv st) (hs : Step st st')
    (id v : String) (hv : getStatus st.email_status id = some v) :
    getStatus st'.email_status id = some v := by
  cases hs with
  | httpSend cfg d idN st hfresh =>
      rcases handle_send_email_cases cfg idN d st with h | ⟨_, h⟩ <;> rw [h] <;> exact hv
  | runJob deliver job pre post st h =>
      rw [show (3 : Nat) = 2 + 1 from rfl, send_email_with_retry_succ]
      obtain ⟨w, hw, hEq⟩ := send_email_spec (deliver 0) job { st with pendingJobs := pre ++ post }
      rw [hEq]
      have hjob : job ∈ st.pendingJobs := by
        rw [h]; exact List.mem_append.mpr (Or.inr (List.mem_cons_self job post))
      have hnone : getStatus st.email_status job.requestId = none := hInv.2.1 job hjob
      have hne : id ≠ job.requestId := by
        intro hEq2
        rw [hEq2, hnone] at hv
        cases hv
      rw [getStatus_setStatus_ne _ _ _ _ hne]
      exact hv

/-! ## Characterization of the address pattern -/

theorem afterDot_iff (l : List Char) :
    afterDot l = true ↔ ∃ c rest, l = c :: rest ∧ c ≠ '@' := by
  cases l with
  | nil =>
      simp only [afterDot]
      constructor
      · intro h; cases h
      · rintro ⟨c, rest, heq, -⟩; cases heq
  | cons c rest =>
      simp only [afterDot, bne_iff_ne]
      constructor
      · intro h; exact ⟨c, rest, rfl, h⟩
      · rintro ⟨c', rest', heq, hc⟩
        cases heq
        exact hc

theorem p2loop_iff (l : List Char) :
    p2loop l = true ↔
      ∃ b c rest, l = b ++ '.' :: c :: rest ∧ (∀ x ∈ b, x ≠ '@') ∧ c ≠ '@' := by
  induction l with
  | nil =>
      constructor
      · intro h; cases h
      · rintro ⟨b, c, rest, heq, -, -⟩
        exact absurd heq.symm (List.append_ne_nil_of_right_ne_nil b (by simp))
  | cons a t ih =>
      constructor
      · intro h
        simp only [p2loop, Bool.or_eq_true, Bool.and_eq_true, beq_iff_eq, bne_iff_ne] at h
        rcases h with ⟨ha, hAfter⟩ | ⟨ha, hLoop⟩
        · obtain ⟨c, rest, heq, hc⟩ := (afterDot_iff t).mp hAfter
          exact ⟨[], c, rest, by rw [ha, heq]; rfl,
            fun x hx => absurd hx (List.not_mem_nil x), hc⟩
        · obtain ⟨b, c, rest, heq, hb, hc⟩ := ih.mp hLoop
          refine ⟨a :: b, c, rest, by rw [heq]; rfl, ?_, hc⟩
          intro x hx
          rcases List.mem_cons.mp hx with hx | hx
          · rw [hx]; exact ha
          · exact hb x hx
      · rintro ⟨b, c, rest, heq, hb, hc⟩
        simp only [p2loop, Bool.or_eq_true, Bool.and_eq_true, beq_iff_eq, bne_iff_ne]
        cases b with
        | nil =>
            rw [List.nil_append] at heq
            cases heq
            exact Or.inl ⟨rfl, (afterDot_iff _).mpr ⟨c, rest, rfl, hc⟩⟩
        | cons b0 bt =>
            rw [List.cons_append] at heq
            injection heq with ha0 ht
            refine Or.inr ⟨?_, ?_⟩
            · rw [ha0]; exact hb b0 (List.mem_cons_self b0 bt)
            · exact ih.mpr ⟨bt, c, rest, ht,
                fun x hx => hb x (List.mem_cons_of_mem b0 hx), hc⟩

theorem p2_iff (l : List Char) :
    p2 l = true ↔
      ∃ b c rest, l = b ++ '.' :: c :: rest ∧ b ≠ [] ∧ (∀ x ∈ b, x ≠ '@') ∧ c ≠ '@' := by
  cases l with
  | nil =>
      constructor
      · intro h; cases h
      · rintro ⟨b, c, rest, heq, -, -, -⟩
        exact absurd heq.symm (List.append_ne_nil_of_right_ne_nil b (by simp))
  | cons a t =>
      simp only [p2, Bool.and_eq_true, bne_iff_ne]
      constructor
      · rintro ⟨ha, hLoop⟩
        obtain ⟨b, c, rest, heq, hb, hc⟩ := (p2loop_iff t).mp hLoop
        refine ⟨a :: b, c, rest, by rw [heq]; rfl, by simp, ?_, hc⟩
        intro x hx
        rcases List.mem_cons.mp hx with hx | hx
        · rw [hx]; exact ha
        · exact hb x hx
      · rintro ⟨b, c, rest, heq, hbne, hb, hc⟩
        cases b with
        | nil => exact absurd rfl hbne
        | cons b0 bt =>
            rw [List.cons_append] at heq
            injection heq with ha0 ht
            refine ⟨?_, ?_⟩
            · rw [ha0]; exact hb b0 (List.mem_cons_self b0 bt)
            · rw [ht]
              exact (p2loop_iff _).mpr ⟨bt, c, rest, rfl,
                fun x hx => hb x (List.mem_cons_of_mem b0 hx), hc⟩

theorem p1loop_iff (l : List Char) :
    p1loop l = true ↔
      ∃ a rest, l = a ++ '@' :: rest ∧ (∀ x ∈ a, x ≠ '@') ∧ p2 rest = true := by
  induction l with
  | nil =>
      constructor
      · intro h; cases h
      · rintro ⟨a, rest, heq, -, -⟩
        exact absurd heq.symm (List.append_ne_nil_of_right_ne_nil a (by simp))
  | cons c t ih =>
      constructor
      · intro h
        simp only [p1loop, Bool.or_eq_true, Bool.and_eq_true, beq_iff_eq, bne_iff_ne] at h
        rcases h with ⟨hc, hp2⟩ | ⟨hc, hLoop⟩
        · exact ⟨[], t, by rw [hc]; rfl,
            fun x hx => absurd hx (List.not_mem_nil x), hp2⟩
        · obtain ⟨a, rest, heq, ha, hp2⟩ := ih.mp hLoop
          refine ⟨c :: a, rest, by rw [heq]; rfl, ?_, hp2⟩
          intro x hx
          rcases List.mem_cons.mp hx with hx | hx
          · rw [hx]; exact hc
          · exact ha x hx
      · rintro ⟨a, rest, heq, ha, hp2⟩
        simp only [p1loop, Bool.or_eq_true, Bool.and_eq_true, beq_iff_eq, bne_iff_ne]
        cases a with
        | nil =>
            rw [List.nil_append] at heq
            cases heq
            exact Or.inl ⟨rfl, hp2⟩
        | cons a0 at' =>
            rw [List.cons_append] at heq
            injection heq with ha0 ht
            refine Or.inr ⟨?_, ?_⟩
            · rw [ha0]; exact ha a0 (List.mem_cons_self a0 at')
            · exact ih.mpr ⟨at', rest, ht,
                fun x hx => ha x (List.mem_cons_of_mem a0 hx), hp2⟩

/-- `EMAIL_REGEX.match` succeeds exactly on strings that *begin with*
one or more non-`'@'` characters, an `'@'`, one or more non-`'@'`
characters, a `'.'`, and one further non-`'@'` character; everything
after that prefix — including further `'@'`s — is not examined. -/
theorem emailRegexMatch_iff (s : String) :
    emailRegexMatch s = true ↔
      ∃ a b c rest, s.data = a ++ '@' :: (b ++ '.' :: c :: rest) ∧
        a ≠ [] ∧ b ≠ [] ∧ (∀ x ∈ a, x ≠ '@') ∧ (∀ x ∈ b, x ≠ '@') ∧ c ≠ '@' := by
  rw [emailRegexMatch]
  cases hs : s.data with
  | nil =>
      constructor
      · intro h; cases h
      · rintro ⟨a, b, c, rest, heq, -, -, -, -, -⟩
        exact absurd heq.symm (List.append_ne_nil_of_right_ne_nil a (by simp))
  | cons c0 t =>
      simp only [regexTop, Bool.and_eq_true, bne_iff_ne]
      constructor
      · rintro ⟨hc0, hLoop⟩
        obtain ⟨a, rest1, heq, ha, hp2⟩ := (p1loop_iff t).mp hLoop
        obtain ⟨b, c, rest, heq2, hbne, hb, hc⟩ := (p2_iff rest1).mp hp2
        refine ⟨c0 :: a, b, c, rest, by rw [heq, heq2]; rfl, by simp, hbne, ?_, hb, hc⟩
        intro x hx
        rcases List.mem_cons.mp hx with hx | hx
        · rw [hx]; exact hc0
        · exact ha x hx
      · rintro ⟨a, b, c, rest, heq, hane, hbne, ha, hb, hc⟩
        cases a with
        | nil => exact absurd rfl hane
        | cons a0 at' =>
            rw [List.cons_append] at heq
            injection heq with hc0' ht
            refine ⟨?_, ?_⟩
            · rw [hc0']; exact ha a0 (List.mem_cons_self a0 at')
            · rw [ht]
              exact (p1loop_iff _).mpr
                ⟨at', b ++ '.' :: c :: rest, rfl,
                 fun x hx => ha x (List.mem_cons_of_mem a0 hx),
                 (p2_iff _).mpr ⟨b, c, rest, rfl, hbne, hb, hc⟩⟩

/-- Modelled from the spec: the address shape the spec claims the
validator decides — "local-part@domain.tld (one `@`, at least one `.` in
the domain part)" — transcribed for comparison with the source's
`emailRegexMatch`. -/
def specRecipientShape (s : String) : Bool :=
  (s.data.count '@' == 1) &&
    ((s.data.dropWhile (fun c => c != '@')).drop 1).contains '.'

/-! ## Concrete fixtures used by counterexamples and witnesses -/

/-- A fully configured environment. -/
def cfgEx : Config :=
  { userEmail := some "sender@example.com", userAppPassword := some "pw",
    emailFromName := some "Sender" }

/-- Environment with both credentials unset. -/
def cfgNoCreds : Config :=
  { userEmail := none, userAppPassword := none, emailFromName := some "Sender" }

/-- Environment with credentials set but no display name. -/
def cfgNoName : Config :=
  { userEmail := some "sender@example.com", userAppPassword := some "pw",
    emailFromName := none }

/-- A well-formed request. -/
def dEx : EmailData :=
  { subject := some "hello", recipient := some "a@b.co", body := some "hi",
    is_html := false, cc := none, bcc := none }

/-- A request whose recipient contains two `'@'` characters. -/
def dTwoAt : EmailData :=
  { subject := some "s", recipient := some "a@b.c@d", body := some "b",
    is_html := false, cc := none, bcc := none }

/-- A request whose recipient matches no part of the address pattern. -/
def dBadAddr : EmailData :=
  { subject := some "s", recipient := some "nodotexample", body := some "b",
    is_html := false, cc := none, bcc := none }

/-- A request with the recipient field absent. -/
def dMissing : EmailData :=
  { subject := some "s", recipient := none, body := some "b",
    is_html := false, cc := none, bcc := none }

/-- Subject of exactly 255 characters. -/
def subjBoundary : String := String.mk (List.replicate 255 'a')

/-- Body of exactly 10000 characters. -/
def bodyBoundary : String := String.mk (List.replicate 10000 'b')

/-- A request sitting exactly on both length caps. -/
def dBoundary : EmailData :=
  { subject := some subjBoundary, recipient := some "a@b.co", body := some bodyBoundary,
    is_html := false, cc := none, bcc := none }

/-- The dispatch job of `dEx` under `cfgEx` with identifier `"id-1"`. -/
def jobEx : DispatchJob := mkJob cfgEx "id-1" dEx

/-! ## The claims -/

/-- Claim C1 (evaluation of the code at the failing input): with a
delivery that fails on every attempt and `retries = 3`, the dispatcher
performs exactly ONE delivery attempt — the audit log holds exactly one
record for the identifier, not three — and the status registry holds the
Failed state with the error reason.  `send_email` catches the delivery
exception itself, so the retry loop's first iteration reaches `return`
and no retry ever happens, contradicting the claimed (and documented)
three-attempt behaviour. -/
theorem retry_always_fail_single_attempt :
    ((send_email_with_retry (fun _ => DeliverResult.error "SMTPAuthenticationError")
        jobEx 3 5 initState).emailLog.filter
          (fun r => r.requestId == jobEx.requestId)).length = 1
    ∧ getStatus (send_email_with_retry (fun _ => DeliverResult.error "SMTPAuthenticationError")
        jobEx 3 5 initState).email_status jobEx.requestId
        = some "failed (SMTPAuthenticationError)" := by
  constructor <;> rfl

/-- Claim C2, as amended: the admission path does NOT register the fresh
identifier in the status registry — immediately after a successful
`POST /send-email` the status query answers the NotFound value, and only
after the submitted dispatch job executes does it answer a terminal
state. -/
theorem admission_no_pending_registration (cfg : Config) (d : EmailData) (id : String)
    (st : ServerState) (deliver : Nat → DeliverResult)
    (hv : validate_email_data d = none)
    (he : truthy cfg.userEmail = true) (hp : truthy cfg.userAppPassword = true)
    (hfresh : getStatus st.email_status id = none) :
    (handle_send_email cfg id d st).1 = .accepted id
    ∧ (get_email_status (handle_send_email cfg id d st).2 id).2 = "Request ID not found"
    ∧ ∃ v, getStatus (send_email_with_retry deliver (mkJob cfg id d) 3 5
          (handle_send_email cfg id d st).2).email_status id = some v
        ∧ terminalStatus v := by
  have hstate : (handle_send_email cfg id d st).2 =
      { st with pendingJobs := st.pendingJobs ++ [mkJob cfg id d] } := by
    unfold handle_send_email
    rw [hv]
    simp [he, hp]
  have hresp : (handle_send_email cfg id d st).1 = .accepted id := by
    unfold handle_send_email
    rw [hv]
    simp [he, hp]
  refine ⟨hresp, ?_, ?_⟩
  · rw [hstate]
    simp [get_email_status, getStatus, hfresh]
  · rw [show (3 : Nat) = 2 + 1 from rfl, send_email_with_retry_succ]
    obtain ⟨v, hv2, hEq⟩ := send_email_spec (deliver 0) (mkJob cfg id d)
      (handle_send_email cfg id d st).2
    rw [hEq]
    exact ⟨v, getStatus_setStatus_self _ _ _, hv2⟩

/-- Claim C2 counterexample: a request accepted at admission whose
identifier, queried immediately (before the pool has run the job),
yields the NotFound status — refuting "returns Pending or a terminal
state, never NotFound". -/
theorem admission_immediate_query_not_found :
    (handle_send_email cfgEx "id-1" dEx initState).1 = .accepted "id-1"
    ∧ (get_email_status (handle_send_email cfgEx "id-1" dEx initState).2 "id-1").2
        = "Request ID not found" := by
  constructor <;> rfl

/-- Witness for the amended C2 at concrete inputs. -/
theorem admission_no_pending_registration_witness :
    (handle_send_email cfgEx "id-1" dEx initState).1 = .accepted "id-1"
    ∧ (get_email_status (handle_send_email cfgEx "id-1" dEx initState).2 "id-1").2
        = "Request ID not found"
    ∧ ∃ v, getStatus (send_email_with_retry (fun _ => DeliverResult.ok)
          (mkJob cfgEx "id-1" dEx) 3 5
          (handle_send_email cfgEx "id-1" dEx initState).2).email_status "id-1" = some v
        ∧ terminalStatus v :=
  admission_no_pending_registration cfgEx dEx "id-1" initState (fun _ => DeliverResult.ok)
    (by decide) (by decide) (by decide) (by decide)

/-- Claim C3: `send_email` never propagates an exception (it is a total
function of the state): every call appends exactly one audit record and
sets the status entry of the job's identifier to a terminal value; hence
the retry loop body runs at most once — with any positive retry budget
`send_email_with_retry` equals a single `send_email` call on the first
attempt's outcome, and with a zero budget it does nothing. -/
theorem send_email_total_retry_at_most_once (d : DeliverResult)
    (deliver : Nat → DeliverResult) (job : DispatchJob) (st : ServerState)
    (retries delay : Nat) :
    (send_email d job st).emailLog.length = st.emailLog.length + 1
    ∧ (∃ v, getStatus (send_email d job st).email_status job.requestId = some v
          ∧ terminalStatus v)
    ∧ send_email_with_retry deliver job (retries + 1) delay st = send_email (deliver 0) job st
    ∧ send_email_with_retry deliver job 0 delay st = st := by
  obtain ⟨v, hv, hEq⟩ := send_email_spec d job st
  refine ⟨?_, ⟨v, ?_, hv⟩, send_email_with_retry_succ deliver job retries delay st,
    send_email_with_retry_zero deliver job delay st⟩
  · rw [hEq]; simp
  · rw [hEq]; exact getStatus_setStatus_self _ _ _

/-- Claim C4, as amended: the validator's address check accepts exactly
the strings that *begin with* `[^@]+@[^@]+\.[^@]+` — one-plus non-`'@'`
characters, `'@'`, one-plus non-`'@'` characters, `'.'`, one further
non-`'@'` character — with everything after that prefix (further `'@'`s
included) unexamined; and on requests with all fields present, rejection
with the address-format error happens exactly when that match fails. -/
theorem recipient_regex_characterization :
    (∀ s : String, emailRegexMatch s = true ↔
        ∃ a b c rest, s.data = a ++ '@' :: (b ++ '.' :: c :: rest) ∧
          a ≠ [] ∧ b ≠ [] ∧ (∀ x ∈ a, x ≠ '@') ∧ (∀ x ∈ b, x ≠ '@') ∧ c ≠ '@')
    ∧ (∀ d : EmailData, (truthy d.subject && truthy d.recipient && truthy d.body) = true →
        (validate_email_data d = some .invalidEmailFormat ↔
          emailRegexMatch (d.recipient.getD "") = false)) := by
  refine ⟨emailRegexMatch_iff, ?_⟩
  intro d hpres
  unfold validate_email_data
  rw [hpres]
  cases hm : emailRegexMatch (d.recipient.getD "") with
  | false => simp
  | true =>
      simp only [Bool.not_true, Bool.false_eq_true, if_false]
      constructor
      · intro h
        split at h <;> simp_all
      · intro h
        cases h

/-- Claim C4 counterexample: `"a@b.c@d"` has two `'@'` characters — not
the claimed one-`'@'` shape — yet validation accepts it, because
`re.match` only requires a prefix to match. -/
theorem recipient_two_at_signs_accepted :
    dTwoAt.recipient = some "a@b.c@d"
    ∧ validate_email_data dTwoAt = none
    ∧ specRecipientShape "a@b.c@d" = false := by
  refine ⟨rfl, rfl, rfl⟩

/-- Witness for the amended C4 at a concrete input. -/
theorem recipient_regex_characterization_witness :
    validate_email_data dBadAddr = some .invalidEmailFormat :=
  (recipient_regex_characterization.2 dBadAddr (by decide)).mpr (by decide)

/-- Claim C5, as amended: with either credential unset (or empty), an
otherwise valid request is answered with the 400 credentials error whose
body text is "Missing user credentials in .env" (not the claimed
"Missing user credentials"), and the state is unchanged — no job is
submitted. -/
theorem missing_credentials_response (cfg : Config) (d : EmailData) (id : String)
    (st : ServerState) (hv : validate_email_data d = none)
    (hc : (!truthy cfg.userEmail || !truthy cfg.userAppPassword) = true) :
    handle_send_email cfg id d st = (.credsError "Missing user credentials in .env", st) := by
  unfold handle_send_email
  rw [hv]
  simp [hc]

/-- Claim C5 counterexample: the error body the code produces is
"Missing user credentials in .env", which differs from the claimed body
"Missing user credentials". -/
theorem missing_credentials_body_differs :
    handle_send_email cfgNoCreds "id-1" dEx initState
      = (.credsError "Missing user credentials in .env", initState)
    ∧ "Missing user credentials in .env" ≠ "Missing user credentials" := by
  exact ⟨rfl, by decide⟩

/-- Witness for the amended C5 at concrete inputs. -/
theorem missing_credentials_response_witness :
    handle_send_email cfgNoCreds "id-1" dEx initState
      = (.credsError "Missing user credentials in .env", initState) :=
  missing_credentials_response cfgNoCreds dEx "id-1" initState (by decide) (by decide)

/-- Claim C6, as amended: for a request with all three fields present
AND a recipient passing the address check, admission (with credentials
configured) accepts exactly when the subject is at most 255 characters
and the body at most 10000, and rejects with the length error exactly
when one of those caps is exceeded. -/
theorem length_limits_decide_admission (cfg : Config) (d : EmailData) (id : String)
    (st : ServerState)
    (hpres : (truthy d.subject && truthy d.recipient && truthy d.body) = true)
    (hre : emailRegexMatch (d.recipient.getD "") = true)
    (he : truthy cfg.userEmail = true) (hp : truthy cfg.userAppPassword = true) :
    ((handle_send_email cfg id d st).1 = .accepted id ↔
      (d.subject.getD "").length ≤ 255 ∧ (d.body.getD "").length ≤ 10000)
    ∧ ((handle_send_email cfg id d st).1
        = .validationError "Subject or body exceeds character limits" ↔
      255 < (d.subject.getD "").length ∨ 10000 < (d.body.getD "").length) := by
  by_cases hlen : ((d.subject.getD "").length > 255 || (d.body.getD "").length > 10000) = true
  · have hval : validate_email_data d = some .lengthExceeded := by
      unfold validate_email_data
      rw [hpres, hre]
      simp [hlen]
    have hresp : (handle_send_email cfg id d st).1
        = .validationError "Subject or body exceeds character limits" := by
      unfold handle_send_email
      rw [hval]
    simp only [Bool.or_eq_true, decide_eq_true_eq] at hlen
    rw [hresp]
    constructor
    · exact iff_of_false (by simp) (by omega)
    · exact iff_of_true rfl hlen
  · have hval : validate_email_data d = none := by
      unfold validate_email_data
      rw [hpres, hre]
      simp [Bool.not_eq_true] at hlen
      simp [hlen]
    have hresp : (handle_send_email cfg id d st).1 = .accepted id := by
      unfold handle_send_email
      rw [hval]
      simp [he, hp]
    simp only [Bool.or_eq_true, decide_eq_true_eq, not_or] at hlen
    rw [hresp]
    constructor
    · exact iff_of_true rfl (by omega)
    · exact iff_of_false (by simp) (by omega)

/-- Claim C6 counterexample: a request with all fields present and both
lengths under the caps that admission nevertheless rejects (address
error), refuting "accepts whenever the lengths are within limits". -/
theorem length_ok_but_bad_recipient_rejected :
    (truthy dBadAddr.subject && truthy dBadAddr.recipient && truthy dBadAddr.body) = true
    ∧ (dBadAddr.subject.getD "").length ≤ 255
    ∧ (dBadAddr.body.getD "").length ≤ 10000
    ∧ truthy cfgEx.userEmail = true ∧ truthy cfgEx.userAppPassword = true
    ∧ (handle_send_email cfgEx "id-1" dBadAddr initState).1
        = .validationError "Invalid email format" := by
  refine ⟨rfl, by decide, by decide, rfl, rfl, rfl⟩

/-- The boundary subject has exactly 255 characters. -/
theorem subjBoundary_length : subjBoundary.length = 255 := by
  rw [subjBoundary]
  exact List.length_replicate 255 'a'

/-- The boundary body has exactly 10000 characters. -/
theorem bodyBoundary_length : bodyBoundary.length = 10000 := by
  rw [bodyBoundary]
  exact List.length_replicate 10000 'b'

/-- Witness for the amended C6 exactly on the boundary (subject length
255, body length 10000): accepted. -/
theorem length_limits_boundary_witness :
    (handle_send_email cfgEx "id-1" dBoundary initState).1 = .accepted "id-1" :=
  ((length_limits_decide_admission cfgEx dBoundary "id-1" initState
      (by decide) (by decide) (by decide) (by decide)).1).mpr
    ⟨by show subjBoundary.length ≤ 255; rw [subjBoundary_length],
     by show bodyBoundary.length ≤ 10000; rw [bodyBoundary_length]⟩

/-- Claim C7: when the subject, recipient or body is absent or empty,
the handler answers the missing-fields rejection and the state is
returned unchanged: no job is submitted, the status registry gains no
entry and the audit log gains no record. -/
theorem missing_fields_rejected_no_job (cfg : Config) (d : EmailData) (id : String)
    (st : ServerState)
    (h : (truthy d.subject && truthy d.recipient && truthy d.body) = false) :
    handle_send_email cfg id d st = (.validationError "Missing required fields", st) := by
  have hval : validate_email_data d = some .missingFields := by
    unfold validate_email_data
    rw [h]
    rfl
  unfold handle_send_email
  rw [hval]

/-- Witness for C7 at concrete inputs (recipient absent). -/
theorem missing_fields_rejected_no_job_witness :
    handle_send_email cfgEx "id-1" dMissing initState
      = (.validationError "Missing required fields", initState) :=
  missing_fields_rejected_no_job cfgEx dMissing "id-1" initState (by decide)

/-- Claim C8: in every reachable state, the status endpoint echoes the
queried identifier and answers one of exactly "Request ID not found",
"sent", or "failed (<reason>)"; in particular an identifier absent from
the registry yields the NotFound value (the endpoint is a total
function: no crash). -/
theorem status_query_values (st : ServerState) (h : Reachable st) (id : String) :
    (get_email_status st id).1 = id
    ∧ ((get_email_status st id).2 = "Request ID not found"
        ∨ (get_email_status st id).2 = "sent"
        ∨ ∃ r, (get_email_status st id).2 = "failed (" ++ r ++ ")")
    ∧ (getStatus st.email_status id = none →
        (get_email_status st id).2 = "Request ID not found") := by
  refine ⟨rfl, ?_, fun hn => by simp [get_email_status, hn]⟩
  cases hg : getStatus st.email_status id with
  | none => exact Or.inl (by simp [get_email_status, hg])
  | some v =>
      have hm := getStatus_eq_some_mem _ _ _ hg
      have ht := (reachable_inv st h).1 (id, v) hm
      rcases ht with h1 | ⟨r, h1⟩
      · exact Or.inr (Or.inl (by simp [get_email_status, hg, h1]))
      · exact Or.inr (Or.inr ⟨r, by simp [get_email_status, hg, h1]⟩)

/-- Witness for C8 at the initial state and an unknown identifier. -/
theorem status_query_values_witness :
    (get_email_status initState "nope").1 = "nope"
    ∧ ((get_email_status initState "nope").2 = "Request ID not found"
        ∨ (get_email_status initState "nope").2 = "sent"
        ∨ ∃ r, (get_email_status initState "nope").2 = "failed (" ++ r ++ ")")
    ∧ (getStatus initState.email_status "nope" = none →
        (get_email_status initState "nope").2 = "Request ID not found") :=
  status_query_values initState Relation.ReflTransGen.refl "nope"

/-- Claim C9: once a reachable state's registry holds a (necessarily
terminal) value for an identifier, every later run of the program leaves
that entry exactly as it is — it is never overwritten with a different
value and never deleted.  (Each job is consumed by the step that runs
it, identifiers are fresh, and nothing else writes the registry.) -/
theorem terminal_status_stable (st st' : ServerState) (h : Reachable st)
    (hsteps : Relation.ReflTransGen Step st st') (id v : String)
    (hv : getStatus st.email_status id = some v) :
    getStatus st'.email_status id = some v := by
  induction hsteps with
  | refl => exact hv
  | tail h1 h2 ih =>
      exact step_preserves_status _ _ (reachable_inv _ (h.trans h1)) h2 id v ih

/-! Concrete two-step run used by the C9 witness: admit `dEx` under
identifier `"id-1"`, then let the pool run the job successfully. -/

/-- State after the admission of `dEx` with identifier `"id-1"`. -/
def stateA : ServerState := (handle_send_email cfgEx "id-1" dEx initState).2

/-- State after the pool has run the job, delivery succeeding. -/
def stateB : ServerState :=
  send_email_with_retry (fun _ => DeliverResult.ok) (mkJob cfgEx "id-1" dEx) 3 5
    { stateA with pendingJobs := ([] : List DispatchJob) ++ [] }

theorem step_init_A : Step initState stateA :=
  Step.httpSend cfgEx dEx "id-1" initState ⟨rfl, by decide⟩

theorem step_A_B : Step stateA stateB :=
  Step.runJob (fun _ => DeliverResult.ok) (mkJob cfgEx "id-1" dEx) [] [] stateA (by decide)

theorem reachable_stateB : Reachable stateB :=
  Relation.ReflTransGen.tail (Relation.ReflTransGen.tail Relation.ReflTransGen.refl
    step_init_A) step_A_B

theorem step_B_next : Step stateB (handle_send_email cfgEx "id-2" dEx stateB).2 :=
  Step.httpSend cfgEx dEx "id-2" stateB ⟨by decide, by decide⟩

/-- Witness for C9: after `"id-1"` reached `"sent"`, a further step (a
second admission) leaves its entry untouched. -/
theorem terminal_status_stable_witness :
    getStatus ((handle_send_email cfgEx "id-2" dEx stateB).2).email_status "id-1"
      = some "sent" :=
  terminal_status_stable stateB ((handle_send_email cfgEx "id-2" dEx stateB).2)
    reachable_stateB (Relation.ReflTransGen.single step_B_next) "id-1" "sent" (by decide)

/-- Claim C10: admission checks only the sender email and password — a
valid request is accepted and its job submitted even with the display
name unset — and the composed message's From header then renders the
absent display name (Python formats `None`), rather than the request
being rejected. -/
theorem absent_display_name_accepted (cfg : Config) (d : EmailData) (id : String)
    (st : ServerState) (hv : validate_email_data d = none)
    (he : truthy cfg.userEmail = true) (hp : truthy cfg.userAppPassword = true)
    (hn : cfg.emailFromName = none) :
    (handle_send_email cfg id d st).1 = .accepted id
    ∧ (handle_send_email cfg id d st).2.pendingJobs = st.pendingJobs ++ [mkJob cfg id d]
    ∧ (compose_message (mkJob cfg id d)).fromField
        = "None <" ++ cfg.userEmail.getD "" ++ ">" := by
  refine ⟨?_, ?_, ?_⟩
  · unfold handle_send_email
    rw [hv]
    simp [he, hp]
  · unfold handle_send_email
    rw [hv]
    simp [he, hp]
  · show pyStrOpt cfg.emailFromName ++ " <" ++ cfg.userEmail.getD "" ++ ">"
        = "None <" ++ cfg.userEmail.getD "" ++ ">"
    have h1 : pyStrOpt none ++ " <" = "None <" := rfl
    rw [hn, h1]

/-- Witness for C10 at concrete inputs (display name unset). -/
theorem absent_display_name_accepted_witness :
    (handle_send_email cfgNoName "id-1" dEx initState).1 = .accepted "id-1"
    ∧ (handle_send_email cfgNoName "id-1" dEx initState).2.pendingJobs
        = initState.pendingJobs ++ [mkJob cfgNoName "id-1" dEx]
    ∧ (compose_message (mkJob cfgNoName "id-1" dEx)).fromField
        = "None <" ++ cfgNoName.userEmail.getD "" ++ ">" :=
  absent_display_name_accepted cfgNoName dEx "id-1" initState (by decide) rfl rfl rfl

end MailServer
